import Mathlib

/-!
Verification of the Branch Watch tool (Dolphin's `BranchWatchDialog.cpp`).

This development shallowly embeds the branch-watch dialog's filtering,
classification, and control logic, together with a model (from the spec) of
the candidate store that lives in the excluded `Core::BranchWatch` module,
and proves the specification's claims about them.
-/

namespace BranchWatch

/-! ## Instruction field decoding (`UGeckoInstruction` bit fields)

A PowerPC instruction word is 32 bits.  `OPCD` is the primary opcode
(bits 26..31), `SUBOP10` the 10-bit extended opcode (bits 1..10), `BO` the
branch-options field (bits 21..25), and `LK` the link bit (bit 0). -/

def OPCD (inst : Nat) : Nat := inst >>> 26 &&& 0x3F

def SUBOP10 (inst : Nat) : Nat := inst >>> 1 &&& 0x3FF

def BO_field (inst : Nat) : Nat := inst >>> 21 &&& 0x1F

def LK (inst : Nat) : Nat := inst &&& 1

/-- Embeds `BranchSavesLR` (BranchWatchDialog.cpp:158-164): every branch
instruction uses the same `LK` field. -/
def BranchSavesLR (inst : Nat) : Bool := LK inst = 1

/-! ## Branch-kind classification -/

/-- The twelve branch kinds distinguished by the Branch Watch filter. -/
inductive BranchKind where
  | b | bl | bc | bcl | blr | blrl | bclr | bclrl | bctr | bctrl | bcctr | bcctrl
deriving DecidableEq, Repr

/-- The branch-kind classification table as given in the spec (primary
opcode 18 gives b/bl, 16 gives bc/bcl, 19 with sub-opcode 16 gives
blr/blrl when the BO bits 0b10100 are all set else bclr/bclrl, 19 with
sub-opcode 528 gives bctr/bctrl under the same BO pattern else
bcctr/bcctrl, every other opcode is rejected, and the lr-saved variant is
chosen by the shared LK bit). -/
def classifyBranch (inst : Nat) : Option BranchKind :=
  let lr_saved := BranchSavesLR inst
  if OPCD inst = 18 then some (if lr_saved then .bl else .b)
  else if OPCD inst = 16 then some (if lr_saved then .bcl else .bc)
  else if OPCD inst = 19 then
    if SUBOP10 inst = 16 then
      if BO_field inst &&& 0b10100 = 0b10100 then some (if lr_saved then .blrl else .blr)
      else some (if lr_saved then .bclrl else .bclr)
    else if SUBOP10 inst = 528 then
      if BO_field inst &&& 0b10100 = 0b10100 then some (if lr_saved then .bctrl else .bctr)
      else some (if lr_saved then .bcctrl else .bcctr)
    else none
  else none

/-! ## The proxy model's filter state

Embeds the private state of `BranchWatchProxyModel`
(BranchWatchDialog.cpp:100-108): one toggle per branch kind, one per
condition value, optional min/max bounds for origin and destination
addresses, and origin/destination symbol-name substrings. -/

structure BranchWatchProxyModel where
  m_origin_symbol_name : String
  m_destin_symbol_name : String
  m_origin_min : Option Nat
  m_origin_max : Option Nat
  m_destin_min : Option Nat
  m_destin_max : Option Nat
  m_b : Bool
  m_bl : Bool
  m_bc : Bool
  m_bcl : Bool
  m_blr : Bool
  m_blrl : Bool
  m_bclr : Bool
  m_bclrl : Bool
  m_bctr : Bool
  m_bctrl : Bool
  m_bcctr : Bool
  m_bcctrl : Bool
  m_cond_true : Bool
  m_cond_false : Bool
deriving DecidableEq, Repr

/-- The branch-kind mask of the proxy model, as a predicate on kinds. -/
def branchKindAllowed (m : BranchWatchProxyModel) : BranchKind → Bool
  | .b => m.m_b
  | .bl => m.m_bl
  | .bc => m.m_bc
  | .bcl => m.m_bcl
  | .blr => m.m_blr
  | .blrl => m.m_blrl
  | .bclr => m.m_bclr
  | .bclrl => m.m_bclrl
  | .bctr => m.m_bctr
  | .bctrl => m.m_bctrl
  | .bcctr => m.m_bcctr
  | .bcctrl => m.m_bcctrl

/-- Embeds `BranchWatchProxyModel::IsBranchTypeAllowed`
(BranchWatchDialog.cpp:166-189): switch on the primary opcode (and for
opcode 19 on the 10-bit sub-opcode and the BO "branch always" pattern),
returning the checkbox toggle for the corresponding branch kind; any
unrecognized opcode returns false. -/
def IsBranchTypeAllowed (m : BranchWatchProxyModel) (inst : Nat) : Bool :=
  let lr_saved := BranchSavesLR inst
  if OPCD inst = 18 then (if lr_saved then m.m_bl else m.m_b)
  else if OPCD inst = 16 then (if lr_saved then m.m_bcl else m.m_bc)
  else if OPCD inst = 19 then
    if SUBOP10 inst = 16 then
      if BO_field inst &&& 0b10100 = 0b10100 then (if lr_saved then m.m_blrl else m.m_blr)
      else (if lr_saved then m.m_bclrl else m.m_bclr)
    else if SUBOP10 inst = 528 then
      if BO_field inst &&& 0b10100 = 0b10100 then (if lr_saved then m.m_bctrl else m.m_bctr)
      else (if lr_saved then m.m_bcctrl else m.m_bcctr)
    else false
  else false

lemma isBranchTypeAllowed_eq_classify (m : BranchWatchProxyModel) (inst : Nat) :
    IsBranchTypeAllowed m inst =
      (match classifyBranch inst with
       | none => false
       | some k => branchKindAllowed m k) := by
  unfold IsBranchTypeAllowed classifyBranch
  by_cases h18 : OPCD inst = 18 <;> by_cases h16 : OPCD inst = 16 <;>
    by_cases h19 : OPCD inst = 19 <;>
    by_cases hs16 : SUBOP10 inst = 16 <;> by_cases hs528 : SUBOP10 inst = 528 <;>
    by_cases hbo : BO_field inst &&& 0b10100 = 0b10100 <;>
    by_cases hlr : BranchSavesLR inst <;>
    simp [h18, h16, h19, hs16, hs528, hbo, hlr, branchKindAllowed]

/-! ## Case-insensitive substring containment

Models `QString::contains(needle, Qt::CaseInsensitive)`: both strings are
case-folded and the needle is searched as a contiguous substring. -/

def charsContains (hay needle : List Char) : Bool :=
  match hay with
  | [] => needle.isEmpty
  | _ :: t => needle.isPrefixOf hay || charsContains t needle

def containsCaseInsensitive (hay needle : String) : Bool :=
  charsContains hay.toLower.toList needle.toLower.toList

/-! ## Rows of the branch-watch table

One row of the proxy model's source data, as read by `filterAcceptsRow`:
the selection entry's condition bit and collection key
(`origin_addr`, `destin_addr`, `original_inst`), plus the symbol list
entry for the row (an invalid `QVariant`, i.e. `none`, when no symbol
resolves at that address). -/

structure BranchWatchTableRow where
  condition : Bool
  origin_addr : Nat
  destin_addr : Nat
  original_inst : Nat
  origin_name : Option String
  destin_name : Option String
deriving DecidableEq, Repr

/-- Embeds the min-bound test of `filterAcceptsRow`
(BranchWatchDialog.cpp:125-126 and 129-130): reject when a minimum is set
and the address is below it. -/
def minBoundAccepts (mn : Option Nat) (addr : Nat) : Bool :=
  match mn with
  | none => true
  | some v => !decide (addr < v)

/-- Embeds the max-bound test of `filterAcceptsRow`
(BranchWatchDialog.cpp:127-128 and 131-132): reject when a maximum is set
and the address is above it. -/
def maxBoundAccepts (mx : Option Nat) (addr : Nat) : Bool :=
  match mx with
  | none => true
  | some v => !decide (v < addr)

def addressRangeAccepts (mn mx : Option Nat) (addr : Nat) : Bool :=
  minBoundAccepts mn addr && maxBoundAccepts mx addr

/-- Embeds the symbol-substring test of `filterAcceptsRow`
(BranchWatchDialog.cpp:134-147): when the needle is nonempty, an
unresolved symbol (invalid `QVariant`) fails the row, and a resolved one
must contain the needle case-insensitively. -/
def symbolAccepts (needle : String) (name : Option String) : Bool :=
  if needle.isEmpty then true
  else
    match name with
    | none => false
    | some s => containsCaseInsensitive s needle

/-- Embeds `BranchWatchProxyModel::filterAcceptsRow`
(BranchWatchDialog.cpp:110-149) as the conjunction of its early-return
tests: condition toggle, branch-type mask, origin/destination address
bounds, origin/destination symbol substrings. -/
def filterAcceptsRow (m : BranchWatchProxyModel) (row : BranchWatchTableRow) : Bool :=
  (if row.condition then m.m_cond_true else m.m_cond_false) &&
  IsBranchTypeAllowed m row.original_inst &&
  addressRangeAccepts m.m_origin_min m.m_origin_max row.origin_addr &&
  addressRangeAccepts m.m_destin_min m.m_destin_max row.destin_addr &&
  symbolAccepts m.m_origin_symbol_name row.origin_name &&
  symbolAccepts m.m_destin_symbol_name row.destin_name

/-! ## Parsing of the Min/Max address fields

Models `QString::toUInt(&ok, 16)` as used by
`BranchWatchProxyModel::OnAddressTextChanged`
(BranchWatchDialog.cpp:85-94): leading/trailing whitespace is ignored, an
optional leading plus sign and an optional `0x`/`0X` prefix are accepted,
then at least one hexadecimal digit must make up the whole remainder, and
the value must fit in an unsigned 32-bit integer; anything else fails
(yielding `none`). -/

def isQtSpace (c : Char) : Bool :=
  c == ' ' || c == '\t' || c == '\n' || c == '\r'

def isHexDigit (c : Char) : Bool :=
  ('0' ≤ c && c ≤ '9') || ('a' ≤ c && c ≤ 'f') || ('A' ≤ c && c ≤ 'F')

def hexDigitValue (c : Char) : Nat :=
  if '0' ≤ c && c ≤ '9' then c.toNat - '0'.toNat
  else if 'a' ≤ c && c ≤ 'f' then c.toNat - 'a'.toNat + 10
  else c.toNat - 'A'.toNat + 10

def hexValueAux : List Char → Nat → Nat
  | [], acc => acc
  | c :: rest, acc => hexValueAux rest (acc * 16 + hexDigitValue c)

def stripPlus : List Char → List Char
  | '+' :: rest => rest
  | l => l

def stripHexMarker : List Char → List Char
  | '0' :: 'x' :: rest => rest
  | '0' :: 'X' :: rest => rest
  | l => l

def qstringToUIntHex (s : String) : Option Nat :=
  let cs := s.toList.dropWhile isQtSpace
  let cs := (cs.reverse.dropWhile isQtSpace).reverse
  let cs := stripPlus cs
  let cs := stripHexMarker cs
  if cs.isEmpty then none
  else if cs.all isHexDigit then
    let v := hexValueAux cs 0
    if v < 2 ^ 32 then some v else none
  else none

/-- Embeds `OnAddressTextChanged` (BranchWatchDialog.cpp:85-94)
instantiated for the origin minimum bound: a successful hex parse sets
the bound, a failed one clears it. -/
def OnOriginMinTextChanged (m : BranchWatchProxyModel) (text : String) :
    BranchWatchProxyModel :=
  match qstringToUIntHex text with
  | some value => { m with m_origin_min := some value }
  | none => { m with m_origin_min := none }

/-- Embeds `OnAddressTextChanged` instantiated for the origin maximum. -/
def OnOriginMaxTextChanged (m : BranchWatchProxyModel) (text : String) :
    BranchWatchProxyModel :=
  match qstringToUIntHex text with
  | some value => { m with m_origin_max := some value }
  | none => { m with m_origin_max := none }

/-- Embeds `OnAddressTextChanged` instantiated for the destination minimum. -/
def OnDestinMinTextChanged (m : BranchWatchProxyModel) (text : String) :
    BranchWatchProxyModel :=
  match qstringToUIntHex text with
  | some value => { m with m_destin_min := some value }
  | none => { m with m_destin_min := none }

/-- Embeds `OnAddressTextChanged` instantiated for the destination maximum. -/
def OnDestinMaxTextChanged (m : BranchWatchProxyModel) (text : String) :
    BranchWatchProxyModel :=
  match qstringToUIntHex text with
  | some value => { m with m_destin_max := some value }
  | none => { m with m_destin_max := none }

/-! ## Core emulation state

The `Core::State` values consulted by the dialog. -/

inductive CoreState where
  | uninitialized
  | starting
  | paused
  | running
  | stopping
deriving DecidableEq, Repr

/-- Embeds the `Insert BLR` enable condition of
`BranchWatchDialog::OnTableContextMenu`, Destination-column case
(BranchWatchDialog.cpp:818-836): the action is enabled iff the core state
is not Uninitialized and the branch instruction of every selected row
saves the link register. -/
def insertBLREnabled (coreState : CoreState) (insts : List Nat) : Bool :=
  decide (coreState ≠ CoreState.uninitialized) &&
  insts.all (fun w => BranchSavesLR w)

/-! ## The candidate store (modelled from the spec)

The store itself lives in the excluded `Core::BranchWatch` /
`BranchWatchTableModel` collaborator modules, so it is modelled here from
the spec's data model and component contracts. -/

/-- Modelled from the spec: `BranchIdentity`, the immutable key of a
candidate (origin address, destination address, raw instruction word,
evaluated condition); the condition is part of the key. -/
structure BranchIdentity where
  origin_addr : Nat
  destin_addr : Nat
  original_inst : Nat
  condition : Bool
deriving DecidableEq, Repr

/-- Modelled from the spec: `CandidateRecord`, the per-identity statistics
owned by the store (total hits, recent hits, inspected flag, blacklist
membership). -/
structure CandidateRecord where
  ident : BranchIdentity
  total_hits : Nat
  recent_hits : Nat
  inspected : Bool
  blacklisted : Bool
deriving DecidableEq, Repr

/-- Modelled from the spec: the store-wide recording phase. -/
inductive BranchWatchPhase where
  | blacklist
  | reduction
deriving DecidableEq, Repr

/-- Modelled from the spec: the candidate store (the missing
`Core::BranchWatch`): the phase, the full collection of records, and the
Selection (authoritative in the Reduction phase, populated at the
transition as the collection minus the blacklist). -/
structure BranchWatchStore where
  phase : BranchWatchPhase
  records : List CandidateRecord
  selection : List CandidateRecord
deriving DecidableEq, Repr

def collectionSize (s : BranchWatchStore) : Nat := s.records.length

def blacklistSize (s : BranchWatchStore) : Nat :=
  (s.records.filter (fun r => r.blacklisted)).length

/-- Modelled from the spec: `RecordHit` — insert a fresh record with
`total_hits = 1, recent_hits = 1` when the identity is absent, otherwise
increment both counters (Selection entries alias the collection's records
in the source, so the increment is applied to both lists). -/
def RecordHit (id : BranchIdentity) (s : BranchWatchStore) : BranchWatchStore :=
  if s.records.any (fun r => r.ident = id) then
    let bump := fun (r : CandidateRecord) =>
      if r.ident = id then
        { r with total_hits := r.total_hits + 1, recent_hits := r.recent_hits + 1 }
      else r
    { s with records := s.records.map bump, selection := s.selection.map bump }
  else
    { s with records := s.records ++ [⟨id, 1, 1, false, false⟩] }

/-- Modelled from the spec: `ClearAll` — destroy every record, empty the
Selection, and reset the phase to Blacklist. -/
def ClearAll (_ : BranchWatchStore) : BranchWatchStore :=
  ⟨.blacklist, [], []⟩

/-- Modelled from the spec: `TransitionToReduction` — valid only from the
Blacklist phase, where it computes the Selection as all recorded
identities minus the blacklisted ones; a no-op in the Reduction phase. -/
def TransitionToReduction (s : BranchWatchStore) : BranchWatchStore :=
  if s.phase = .blacklist then
    ⟨.reduction, s.records, s.records.filter (fun r => !r.blacklisted)⟩
  else s

/-- Modelled from the spec: the "Code Path Was Taken" operation — the
first request transitions to the Reduction phase; the Selection then
keeps only entries hit since the last wipe (`recent_hits > 0`). -/
def ApplyTakenReduction (s : BranchWatchStore) : BranchWatchStore :=
  let t := TransitionToReduction s
  { t with selection := t.selection.filter (fun r => decide (0 < r.recent_hits)) }

/-- Modelled from the spec: the "Code Path Not Taken" operation — in the
Blacklist phase it marks recently-hit candidates as blacklisted; in the
Reduction phase the Selection keeps only entries with `recent_hits = 0`. -/
def ApplyNotTakenReduction (s : BranchWatchStore) : BranchWatchStore :=
  if s.phase = .blacklist then
    { s with records := s.records.map (fun r =>
        if 0 < r.recent_hits then { r with blacklisted := true } else r) }
  else
    { s with selection := s.selection.filter (fun r => decide (r.recent_hits = 0)) }

/-- Modelled from the spec: the "Branch Was Overwritten" operation —
re-read the current instruction word at each origin; keep (or, in the
Blacklist phase, avoid blacklisting) entries whose current memory content
differs from `original_inst`. -/
def ApplyOverwrittenReduction (mem : Nat → Nat) (s : BranchWatchStore) :
    BranchWatchStore :=
  if s.phase = .blacklist then
    { s with records := s.records.map (fun r =>
        if mem r.ident.origin_addr = r.ident.original_inst then
          { r with blacklisted := true }
        else r) }
  else
    { s with selection := s.selection.filter (fun r =>
        decide (mem r.ident.origin_addr ≠ r.ident.original_inst)) }

/-- Modelled from the spec: the "Branch Not Overwritten" operation — keep
(or avoid blacklisting) entries whose current memory content still
matches `original_inst`. -/
def ApplyNotOverwrittenReduction (mem : Nat → Nat) (s : BranchWatchStore) :
    BranchWatchStore :=
  if s.phase = .blacklist then
    { s with records := s.records.map (fun r =>
        if mem r.ident.origin_addr ≠ r.ident.original_inst then
          { r with blacklisted := true }
        else r) }
  else
    { s with selection := s.selection.filter (fun r =>
        decide (mem r.ident.origin_addr = r.ident.original_inst)) }

/-- Modelled from the spec: `WipeRecentHits` — set `recent_hits = 0` on
every record without touching Selection membership or `total_hits`. -/
def WipeRecentHits (s : BranchWatchStore) : BranchWatchStore :=
  { s with records := s.records.map (fun r => { r with recent_hits := 0 }),
           selection := s.selection.map (fun r => { r with recent_hits := 0 }) }

/-- Modelled from the spec: `WipeInspectionData` — clear `inspected` on
every record. -/
def WipeInspectionData (s : BranchWatchStore) : BranchWatchStore :=
  { s with records := s.records.map (fun r => { r with inspected := false }),
           selection := s.selection.map (fun r => { r with inspected := false }) }

/-- Modelled from the spec: deletion requested from the query layer —
permanently remove the given identities from the candidate pool and the
Selection. -/
def DeleteIdentities (keys : List BranchIdentity) (s : BranchWatchStore) :
    BranchWatchStore :=
  { s with records := s.records.filter (fun r => !decide (r.ident ∈ keys)),
           selection := s.selection.filter (fun r => !decide (r.ident ∈ keys)) }

/-- Modelled from the spec: set the `inspected` flag of the given
identities (the store-side effect of the NOP/BLR patch actions). -/
def SetInspectedIdentities (keys : List BranchIdentity) (s : BranchWatchStore) :
    BranchWatchStore :=
  let touch := fun (r : CandidateRecord) =>
    if r.ident ∈ keys then { r with inspected := true } else r
  { s with records := s.records.map touch, selection := s.selection.map touch }

/-- Modelled from the spec: `CanSave` — true iff the store has any
recorded candidates, even in the Blacklist phase. -/
def CanSave (s : BranchWatchStore) : Bool := !s.records.isEmpty

/-! ## Dialog operations over the store

One constructor per user-facing Branch Watch operation (plus the
execution-thread `recordHit`), with its store semantics in `stepOp`. -/

inductive BranchWatchOp where
  | recordHit (id : BranchIdentity)
  | clearBranchWatch
  | codePathWasTaken
  | codePathNotTaken
  | branchWasOverwritten (mem : Nat → Nat)
  | branchNotOverwritten (mem : Nat → Nat)
  | wipeRecentHits
  | wipeInspection
  | tableDelete (keys : List BranchIdentity)
  | tableSetNOP (keys : List BranchIdentity)
  | tableSetBLR (keys : List BranchIdentity)

def stepOp : BranchWatchOp → BranchWatchStore → BranchWatchStore
  | .recordHit id, s => RecordHit id s
  | .clearBranchWatch, s => ClearAll s
  | .codePathWasTaken, s => ApplyTakenReduction s
  | .codePathNotTaken, s => ApplyNotTakenReduction s
  | .branchWasOverwritten mem, s => ApplyOverwrittenReduction mem s
  | .branchNotOverwritten mem, s => ApplyNotOverwrittenReduction mem s
  | .wipeRecentHits, s => WipeRecentHits s
  | .wipeInspection, s => WipeInspectionData s
  | .tableDelete keys, s => DeleteIdentities keys s
  | .tableSetNOP keys, s => SetInspectedIdentities keys s
  | .tableSetBLR keys, s => SetInspectedIdentities keys s

/-- Whether the operation is driven by a dialog handler (everything except
the execution-thread `recordHit`). -/
def isDialogOp : BranchWatchOp → Bool
  | .recordHit _ => false
  | _ => true

/-- Which dialog handlers call `UpdateStatus` after running, read off the
source: `OnClearBranchWatch` (BranchWatchDialog.cpp:565),
`OnCodePathWasTaken` (628), `OnCodePathNotTaken` (638),
`OnBranchWasOverwritten` (653), `OnBranchNotOverwritten` (668),
`OnTableDelete` (866) do; `OnWipeRecentHits` (671-674),
`OnWipeInspection` (676-679), `OnTableSetBLR` (874-891) and
`OnTableSetNOP` (893-904) do not. -/
def callsUpdateStatus : BranchWatchOp → Bool
  | .clearBranchWatch => true
  | .codePathWasTaken => true
  | .codePathNotTaken => true
  | .branchWasOverwritten _ => true
  | .branchNotOverwritten _ => true
  | .tableDelete _ => true
  | _ => false

/-! ## The status summary (`BranchWatchDialog::UpdateStatus`) -/

/-- The status summary exposed for presentation: phase, candidate count,
excluded-or-filtered count, remaining count. -/
structure StatusSummary where
  phase : BranchWatchPhase
  candidates : Nat
  excluded : Nat
  remaining : Nat
deriving DecidableEq, Repr

/-- The table row built for a stored record: key fields from the
identity, symbol names from the external symbol resolver. -/
def rowOfRecord (sym : Nat → Option String) (r : CandidateRecord) :
    BranchWatchTableRow :=
  ⟨r.ident.condition, r.ident.origin_addr, r.ident.destin_addr,
   r.ident.original_inst, sym r.ident.origin_addr, sym r.ident.destin_addr⟩

/-- The proxy model's row count: the Selection entries accepted by the
filter. -/
def proxyRowCount (m : BranchWatchProxyModel) (sym : Nat → Option String)
    (s : BranchWatchStore) : Nat :=
  (s.selection.filter (fun r => filterAcceptsRow m (rowOfRecord sym r))).length

/-- Embeds `BranchWatchDialog::UpdateStatus`
(BranchWatchDialog.cpp:944-979): in the Blacklist phase the candidate
count is the collection size, the excluded count is the blacklist size,
and the remaining count their difference; in the Reduction phase the
candidate count is the Selection size, the remaining count is the proxy
row count, and the filtered count their difference. -/
def UpdateStatus (m : BranchWatchProxyModel) (sym : Nat → Option String)
    (s : BranchWatchStore) : StatusSummary :=
  match s.phase with
  | .blacklist =>
    let candidate_size := collectionSize s
    let blacklist_size := blacklistSize s
    ⟨.blacklist, candidate_size, blacklist_size, candidate_size - blacklist_size⟩
  | .reduction =>
    let candidate_size := s.selection.length
    let remaining_size := proxyRowCount m sym s
    ⟨.reduction, candidate_size, candidate_size - remaining_size, remaining_size⟩

/-! ## Dialog handlers for the overwritten checks (C4) -/

inductive BranchWatchError where
  | coreUninitialized
deriving DecidableEq, Repr

/-- Embeds `BranchWatchDialog::OnBranchWasOverwritten`
(BranchWatchDialog.cpp:641-654): when the core is Uninitialized, warn and
return without touching the store; otherwise run the reduction under the
CPU thread guard. -/
def OnBranchWasOverwritten (coreState : CoreState) (mem : Nat → Nat)
    (s : BranchWatchStore) : BranchWatchStore × Option BranchWatchError :=
  if coreState = CoreState.uninitialized then (s, some .coreUninitialized)
  else (ApplyOverwrittenReduction mem s, none)

/-- Embeds `BranchWatchDialog::OnBranchNotOverwritten`
(BranchWatchDialog.cpp:656-669). -/
def OnBranchNotOverwritten (coreState : CoreState) (mem : Nat → Nat)
    (s : BranchWatchStore) : BranchWatchStore × Option BranchWatchError :=
  if coreState = CoreState.uninitialized then (s, some .coreUninitialized)
  else (ApplyNotOverwrittenReduction mem s, none)

/-! ## Snapshot-save gating (C6) -/

/-- Outcome of a save request: whether the save routine ran, and whether
an error dialog was reported. -/
structure SaveOutcome where
  didSave : Bool
  errorReported : Bool
deriving DecidableEq, Repr

/-- Embeds `BranchWatchDialog::OnSave` (BranchWatchDialog.cpp:574-583):
warn "There is nothing to save!" and return when `CanSave` is false,
otherwise save to the default filepath. -/
def OnSave (s : BranchWatchStore) : SaveOutcome :=
  if !CanSave s then ⟨false, true⟩ else ⟨true, false⟩

/-- Embeds `BranchWatchDialog::OnSaveAs` (BranchWatchDialog.cpp:585-601):
warn and return when `CanSave` is false; otherwise return silently when
the file dialog yields an empty filepath, else save. -/
def OnSaveAs (s : BranchWatchStore) (filepathEmpty : Bool) : SaveOutcome :=
  if !CanSave s then ⟨false, true⟩
  else if filepathEmpty then ⟨false, false⟩
  else ⟨true, false⟩

/-- Embeds `BranchWatchDialog::AutoSave` (BranchWatchDialog.cpp:1011-1016):
return silently — no error dialog — unless auto-save is checked and
`CanSave` holds. -/
def AutoSave (autosaveChecked : Bool) (s : BranchWatchStore) : SaveOutcome :=
  if !autosaveChecked || !CanSave s then ⟨false, false⟩ else ⟨true, false⟩

/-! ## Patch actions (C7) -/

/-- Dialog-level state: the store plus the log of `SetPatch` calls made to
the external memory-patch service, in order, as (address, word) pairs. -/
structure BranchWatchDialogState where
  store : BranchWatchStore
  patches : List (Nat × Nat)
deriving DecidableEq, Repr

/-- Embeds `BranchWatchDialog::OnTableSetNOP`
(BranchWatchDialog.cpp:893-904): for each selected row, call
`SetPatch(clicked address, 0x60000000)` and set the row's inspected flag.
A selection entry is the clicked cell's address paired with the row's
identity. -/
def OnTableSetNOP (sel : List (Nat × BranchIdentity))
    (d : BranchWatchDialogState) : BranchWatchDialogState :=
  ⟨SetInspectedIdentities (sel.map Prod.snd) d.store,
   d.patches ++ sel.map (fun x => (x.1, 0x60000000))⟩

/-- Embeds `BranchWatchDialog::OnTableSetBLR`
(BranchWatchDialog.cpp:874-891): for each selected row, call
`SetPatch(clicked address, 0x4E800020)` and set the row's inspected
flag. -/
def OnTableSetBLR (sel : List (Nat × BranchIdentity))
    (d : BranchWatchDialogState) : BranchWatchDialogState :=
  ⟨SetInspectedIdentities (sel.map Prod.snd) d.store,
   d.patches ++ sel.map (fun x => (x.1, 0x4E800020))⟩

/-! ## Theorems -/

/-- C2: For every 32-bit raw instruction word, the branch-kind
classification behaves exactly per the table: the mask check of
`IsBranchTypeAllowed` agrees with looking the word up in the spec's
classification table (primary opcode 18 gives b/bl by the LK bit, 16
gives bc/bcl, 19 with sub-opcode 16 gives blr/blrl when the BO bits
0b10100 are all set else bclr/bclrl, 19 with sub-opcode 528 gives
bctr/bctrl under the same BO pattern else bcctr/bcctrl, and any other
opcode is rejected); in particular the word with opcode 19, sub-opcode
16, BO = 10100 and LK clear (0x4E800020) classifies as blr, the same word
with LK set as blrl, and a non-branch word (0x60000000, `ori`) is
rejected. -/
theorem branch_classification_table :
    (∀ (m : BranchWatchProxyModel) (inst : Nat),
       IsBranchTypeAllowed m inst =
         (match classifyBranch inst with
          | none => false
          | some k => branchKindAllowed m k)) ∧
    OPCD 0x4E800020 = 19 ∧ SUBOP10 0x4E800020 = 16 ∧
    BO_field 0x4E800020 = 0b10100 ∧ LK 0x4E800020 = 0 ∧
    classifyBranch 0x4E800020 = some BranchKind.blr ∧
    classifyBranch 0x4E800021 = some BranchKind.blrl ∧
    classifyBranch 0x60000000 = none :=
  ⟨isBranchTypeAllowed_eq_classify, by decide, by decide, by decide, by decide,
   by decide, by decide, by decide⟩

/-- C10: The "Insert BLR" action offered on a Destination-column row
selection is enabled iff the core state is not Uninitialized and the
branch instruction of every selected row saves the link register (its LK
bit is set). -/
theorem insert_blr_enable_condition :
    ∀ (coreState : CoreState) (insts : List Nat),
      insertBLREnabled coreState insts = true ↔
        (coreState ≠ CoreState.uninitialized ∧ ∀ w ∈ insts, LK w = 1) := by
  intro cs insts
  simp [insertBLREnabled, BranchSavesLR, List.all_eq_true]

/-- C5: The origin address range test is inclusive on both bounds: with a
range [lo, hi] set, the filtered candidates are exactly those with
lo ≤ origin_addr ≤ hi; an empty range (hi < lo) filters out every
candidate; with no range set every candidate passes the range test. -/
theorem origin_range_filter_exact :
    ∀ (sel : List BranchWatchTableRow) (lo hi : Nat),
      (∀ r, r ∈ sel.filter
            (fun row => addressRangeAccepts (some lo) (some hi) row.origin_addr) ↔
          (r ∈ sel ∧ lo ≤ r.origin_addr ∧ r.origin_addr ≤ hi)) ∧
      (hi < lo →
        sel.filter (fun row => addressRangeAccepts (some lo) (some hi) row.origin_addr) = []) ∧
      sel.filter (fun row => addressRangeAccepts none none row.origin_addr) = sel := by
  intro sel lo hi
  refine ⟨?_, ?_, ?_⟩
  · intro r
    simp [List.mem_filter, addressRangeAccepts, minBoundAccepts, maxBoundAccepts,
      Nat.not_lt, and_assoc]
  · intro hlt
    rw [List.filter_eq_nil_iff]
    intro r _
    simp [addressRangeAccepts, minBoundAccepts, maxBoundAccepts, Nat.not_lt]
    omega
  · rw [List.filter_eq_self]
    intro r _
    simp [addressRangeAccepts, minBoundAccepts, maxBoundAccepts]

def rangeRow : BranchWatchTableRow := ⟨false, 0x80000010, 0, 0, none, none⟩

theorem origin_range_filter_witness :
    (0 : Nat) < 1 ∧
      [rangeRow].filter
        (fun row => addressRangeAccepts (some 1) (some 0) row.origin_addr) = [] :=
  ⟨by decide, (origin_range_filter_exact [rangeRow] 1 0).2.1 (by decide)⟩

/-- C9: Every Min/Max address field text change either parses as a
hexadecimal 32-bit unsigned integer and sets the corresponding bound, or
fails to parse (including the empty string) and clears the bound; parsing
never yields a value of 33 bits or more, the updates are total (no error
path), and a cleared bound passes every address on that side. -/
theorem address_field_parse_behavior :
    (∀ (m : BranchWatchProxyModel) (text : String),
       (OnOriginMinTextChanged m text).m_origin_min = qstringToUIntHex text ∧
       (OnOriginMaxTextChanged m text).m_origin_max = qstringToUIntHex text ∧
       (OnDestinMinTextChanged m text).m_destin_min = qstringToUIntHex text ∧
       (OnDestinMaxTextChanged m text).m_destin_max = qstringToUIntHex text) ∧
    qstringToUIntHex "" = none ∧
    qstringToUIntHex "80003100" = some 0x80003100 ∧
    qstringToUIntHex "ZZZ" = none ∧
    (∀ s v, qstringToUIntHex s = some v → v < 2 ^ 32) ∧
    (∀ a, minBoundAccepts none a = true ∧ maxBoundAccepts none a = true) := by
  refine ⟨?_, by decide, by decide, by decide, ?_, ?_⟩
  · intro m text
    refine ⟨?_, ?_, ?_, ?_⟩ <;>
      · cases h : qstringToUIntHex text <;>
          simp [OnOriginMinTextChanged, OnOriginMaxTextChanged,
            OnDestinMinTextChanged, OnDestinMaxTextChanged, h]
  · intro s v h
    unfold qstringToUIntHex at h
    all_goals (simp_all; try omega)
  · intro a
    exact ⟨rfl, rfl⟩

theorem address_field_parse_witness :
    qstringToUIntHex "FFFFFFFF" = some 4294967295 ∧ 4294967295 < 2 ^ 32 :=
  ⟨by decide, address_field_parse_behavior.2.2.2.2.1 "FFFFFFFF" 4294967295 (by decide)⟩

/-- C4: A "was overwritten" or "not overwritten" reduction request made
while the core is Uninitialized is refused: the handler reports the
error to the caller and returns the store completely unchanged (so the
Selection, hit counts, phase, and blacklist are all untouched). -/
theorem overwritten_checks_refused_uninitialized :
    ∀ (coreState : CoreState) (mem : Nat → Nat) (s : BranchWatchStore),
      coreState = CoreState.uninitialized →
        OnBranchWasOverwritten coreState mem s =
          (s, some BranchWatchError.coreUninitialized) ∧
        OnBranchNotOverwritten coreState mem s =
          (s, some BranchWatchError.coreUninitialized) := by
  intro cs mem s h
  simp [OnBranchWasOverwritten, OnBranchNotOverwritten, h]

def demoStore : BranchWatchStore :=
  ⟨.blacklist, [⟨⟨0x80001000, 0x80002000, 0x48001001, true⟩, 3, 1, false, false⟩], []⟩

theorem overwritten_checks_refused_witness :
    OnBranchWasOverwritten CoreState.uninitialized (fun _ => 0) demoStore =
      (demoStore, some BranchWatchError.coreUninitialized) ∧
    OnBranchNotOverwritten CoreState.uninitialized (fun _ => 0) demoStore =
      (demoStore, some BranchWatchError.coreUninitialized) :=
  overwritten_checks_refused_uninitialized CoreState.uninitialized (fun _ => 0) demoStore rfl

def emptyStore : BranchWatchStore := ⟨.blacklist, [], []⟩

/-- C6 counterexample: the claim states that every snapshot-save
operation, auto-save included, reports an error when `CanSave()` is
false; but `AutoSave` (BranchWatchDialog.cpp:1011-1016) returns silently
with no error report when the store is empty, even with auto-saving
enabled. -/
theorem autosave_refusal_unreported :
    CanSave emptyStore = false ∧
    AutoSave true emptyStore = ⟨false, false⟩ := by decide

/-- C6 (amended): `CanSave()` is true iff the store holds at least one
recorded candidate, regardless of phase; every save operation (save,
save-as, auto-save) performs a save only when `CanSave()` is true; when
it is false, save and save-as refuse and report an error, while auto-save
refuses silently without reporting an error. -/
theorem save_gating :
    (∀ s, CanSave s = true ↔ s.records ≠ []) ∧
    (∀ s, (OnSave s).didSave = true → CanSave s = true) ∧
    (∀ s fe, (OnSaveAs s fe).didSave = true → CanSave s = true) ∧
    (∀ c s, (AutoSave c s).didSave = true → CanSave s = true) ∧
    (∀ s, CanSave s = false → OnSave s = ⟨false, true⟩) ∧
    (∀ s fe, CanSave s = false → OnSaveAs s fe = ⟨false, true⟩) ∧
    (∀ c s, CanSave s = false → AutoSave c s = ⟨false, false⟩) := by
  refine ⟨?_, ?_, ?_, ?_, ?_, ?_, ?_⟩
  · intro s; simp [CanSave]
  · intro s h
    by_cases hc : CanSave s <;> simp [OnSave, hc] at h ⊢
  · intro s fe h
    by_cases hc : CanSave s <;> simp [OnSaveAs, hc] at h ⊢
  · intro c s h
    by_cases hc : CanSave s <;> by_cases hk : c <;> simp [AutoSave, hc, hk] at h ⊢
  · intro s h; simp [OnSave, h]
  · intro s fe h; simp [OnSaveAs, h]
  · intro c s h; simp [AutoSave, h]

theorem save_gating_witness :
    CanSave emptyStore = false ∧ OnSave emptyStore = ⟨false, true⟩ :=
  ⟨by decide, save_gating.2.2.2.2.1 emptyStore (by decide)⟩

/-- C3: Phase transitions are one-directional: a "Code Path Was Taken"
request always leaves the store in the Reduction phase (so the move
Blacklist → Reduction happens at the first such request), a full clear
always resets to the Blacklist phase, and every operation either
preserves the phase, is a taken-request moving Blacklist → Reduction, or
is the full clear resetting to Blacklist — no other operation ever
changes the phase. -/
theorem phase_transitions_one_directional :
    ∀ (s : BranchWatchStore) (op : BranchWatchOp),
      (stepOp BranchWatchOp.codePathWasTaken s).phase = BranchWatchPhase.reduction ∧
      (stepOp BranchWatchOp.clearBranchWatch s).phase = BranchWatchPhase.blacklist ∧
      ((stepOp op s).phase = s.phase ∨
        (s.phase = BranchWatchPhase.blacklist ∧ op = BranchWatchOp.codePathWasTaken ∧
          (stepOp op s).phase = BranchWatchPhase.reduction) ∨
        (op = BranchWatchOp.clearBranchWatch ∧
          (stepOp op s).phase = BranchWatchPhase.blacklist)) := by
  intro s op
  obtain ⟨ph, recs, sel⟩ := s
  refine ⟨?_, rfl, ?_⟩
  · cases ph <;> simp [stepOp, ApplyTakenReduction, TransitionToReduction]
  · cases op with
    | recordHit id =>
      left
      have hstep : stepOp (BranchWatchOp.recordHit id) ⟨ph, recs, sel⟩ =
          RecordHit id ⟨ph, recs, sel⟩ := rfl
      rw [hstep]
      unfold RecordHit
      split <;> rfl
    | clearBranchWatch =>
      right; right; exact ⟨rfl, rfl⟩
    | codePathWasTaken =>
      cases ph with
      | blacklist =>
        right; left
        exact ⟨rfl, rfl, by simp [stepOp, ApplyTakenReduction, TransitionToReduction]⟩
      | reduction =>
        left; simp [stepOp, ApplyTakenReduction, TransitionToReduction]
    | codePathNotTaken =>
      left; cases ph <;> simp [stepOp, ApplyNotTakenReduction]
    | branchWasOverwritten mem =>
      left; cases ph <;> simp [stepOp, ApplyOverwrittenReduction]
    | branchNotOverwritten mem =>
      left; cases ph <;> simp [stepOp, ApplyNotOverwrittenReduction]
    | wipeRecentHits => left; rfl
    | wipeInspection => left; rfl
    | tableDelete keys => left; rfl
    | tableSetNOP keys => left; rfl
    | tableSetBLR keys => left; rfl

/-! ## The filter acceptance predicate, stated from the spec's words -/

/-- The spec's statement of the filter: a record passes iff its condition
flag is in the condition mask, its branch kind (per the classification
table) is in the branch-kind mask, the origin address lies within
whichever origin range bounds are set (all addresses pass an unset
bound), symmetrically for the destination, and for each side either no
symbol substring is set or a symbol resolves at that address and contains
the substring case-insensitively (an unresolved symbol fails the record
when a substring is set). -/
def PassesFilterSpec (m : BranchWatchProxyModel) (row : BranchWatchTableRow) : Prop :=
  ((row.condition = true ∧ m.m_cond_true = true) ∨
   (row.condition = false ∧ m.m_cond_false = true)) ∧
  (∃ k, classifyBranch row.original_inst = some k ∧ branchKindAllowed m k = true) ∧
  (∀ v, m.m_origin_min = some v → v ≤ row.origin_addr) ∧
  (∀ v, m.m_origin_max = some v → row.origin_addr ≤ v) ∧
  (∀ v, m.m_destin_min = some v → v ≤ row.destin_addr) ∧
  (∀ v, m.m_destin_max = some v → row.destin_addr ≤ v) ∧
  (m.m_origin_symbol_name = "" ∨
    ∃ s, row.origin_name = some s ∧
      containsCaseInsensitive s m.m_origin_symbol_name = true) ∧
  (m.m_destin_symbol_name = "" ∨
    ∃ s, row.destin_name = some s ∧
      containsCaseInsensitive s m.m_destin_symbol_name = true)

lemma cond_toggle_iff (c a b : Bool) :
    (if c then a else b) = true ↔ ((c = true ∧ a = true) ∨ (c = false ∧ b = true)) := by
  cases c <;> simp

lemma branch_type_allowed_iff (m : BranchWatchProxyModel) (inst : Nat) :
    IsBranchTypeAllowed m inst = true ↔
      ∃ k, classifyBranch inst = some k ∧ branchKindAllowed m k = true := by
  rw [isBranchTypeAllowed_eq_classify]
  cases h : classifyBranch inst <;> simp

lemma min_bound_accepts_iff (mn : Option Nat) (addr : Nat) :
    minBoundAccepts mn addr = true ↔ ∀ v, mn = some v → v ≤ addr := by
  cases mn <;> simp [minBoundAccepts, Nat.not_lt]

lemma max_bound_accepts_iff (mx : Option Nat) (addr : Nat) :
    maxBoundAccepts mx addr = true ↔ ∀ v, mx = some v → addr ≤ v := by
  cases mx <;> simp [maxBoundAccepts, Nat.not_lt]

lemma symbol_accepts_iff (needle : String) (name : Option String) :
    symbolAccepts needle name = true ↔
      (needle = "" ∨
        ∃ s, name = some s ∧ containsCaseInsensitive s needle = true) := by
  unfold symbolAccepts
  by_cases h : needle.isEmpty
  · have hne : needle = "" := (String.isEmpty_iff needle).1 h
    simp [h, hne]
    exact Or.inl (by decide)
  · have hne : ¬needle = "" := fun heq => h ((String.isEmpty_iff needle).2 heq)
    cases name <;> simp [h, hne]

/-- C1: A record passes `filterAcceptsRow` iff its condition flag is in
the condition mask, AND its branch kind is in the branch-kind mask, AND
its origin address lies within whichever origin range bounds are set, AND
symmetrically for the destination, AND for each side either no symbol
substring is set or the resolved symbol name contains it
case-insensitively — with an unresolved symbol failing the record
whenever a substring is set on that side. -/
theorem filter_accepts_row_iff :
    ∀ (m : BranchWatchProxyModel) (row : BranchWatchTableRow),
      filterAcceptsRow m row = true ↔ PassesFilterSpec m row := by
  intro m row
  unfold filterAcceptsRow PassesFilterSpec addressRangeAccepts
  simp only [Bool.and_eq_true]
  rw [cond_toggle_iff, branch_type_allowed_iff,
    min_bound_accepts_iff, max_bound_accepts_iff,
    min_bound_accepts_iff, max_bound_accepts_iff,
    symbol_accepts_iff, symbol_accepts_iff]
  tauto

/-! ## Helper lemmas on records with pairwise-distinct identities -/

lemma ident_inj_of_nodup {l : List CandidateRecord}
    (hnd : (l.map (fun r => r.ident)).Nodup)
    {a b : CandidateRecord} (ha : a ∈ l) (hb : b ∈ l)
    (hab : a.ident = b.ident) : a = b :=
  List.inj_on_of_nodup_map hnd ha hb hab

lemma inspected_preserved_map {l : List CandidateRecord}
    {f : CandidateRecord → CandidateRecord}
    (hid : ∀ r, (f r).ident = r.ident)
    (hmono : ∀ r, r.inspected = true → (f r).inspected = true)
    (hnd : (l.map (fun r => r.ident)).Nodup) :
    ∀ r' ∈ l.map f,
      (∃ r ∈ l, r.ident = r'.ident ∧ r.inspected = true) → r'.inspected = true := by
  rintro r' hr' ⟨r, hrl, hride, hrins⟩
  obtain ⟨r0, hr0, rfl⟩ := List.mem_map.1 hr'
  have heq : r = r0 := ident_inj_of_nodup hnd hrl hr0 (by rw [hride, hid r0])
  subst heq
  exact hmono r hrins

lemma inspected_preserved_of_mem {l l' : List CandidateRecord}
    (hsub : ∀ r, r ∈ l' → r ∈ l)
    (hnd : (l.map (fun r => r.ident)).Nodup) :
    ∀ r' ∈ l',
      (∃ r ∈ l, r.ident = r'.ident ∧ r.inspected = true) → r'.inspected = true := by
  rintro r' hr' ⟨r, hrl, hride, hrins⟩
  have heq : r = r' := ident_inj_of_nodup hnd hrl (hsub r' hr') hride
  subst heq
  exact hrins

/-- C7: The "Insert NOP" action calls `SetPatch` with the fixed no-op
encoding 0x60000000 at every selected address and the "Insert BLR" action
with the fixed branch-to-link-register encoding 0x4E800020 (the dialog
only dispatches these actions while the core is initialized); both set
the inspected flag of every selected candidate; and among all store
operations only the explicit "wipe inspection data" operation clears an
inspected flag — every other operation preserves a set flag of any
surviving record (assuming the store's records have pairwise-distinct
identities, which the source's map-keyed collection guarantees), while
the wipe clears the flag on every record. -/
theorem patch_actions_contract :
    (∀ (d : BranchWatchDialogState) (sel : List (Nat × BranchIdentity)),
       (OnTableSetNOP sel d).patches =
         d.patches ++ sel.map (fun x => (x.1, 0x60000000)) ∧
       (OnTableSetBLR sel d).patches =
         d.patches ++ sel.map (fun x => (x.1, 0x4E800020)) ∧
       (∀ r ∈ (OnTableSetNOP sel d).store.records,
          r.ident ∈ sel.map Prod.snd → r.inspected = true) ∧
       (∀ r ∈ (OnTableSetBLR sel d).store.records,
          r.ident ∈ sel.map Prod.snd → r.inspected = true)) ∧
    (∀ (op : BranchWatchOp) (s : BranchWatchStore),
       op ≠ BranchWatchOp.wipeInspection →
       (s.records.map (fun r => r.ident)).Nodup →
       ∀ r' ∈ (stepOp op s).records,
         (∃ r ∈ s.records, r.ident = r'.ident ∧ r.inspected = true) →
         r'.inspected = true) ∧
    (∀ s, ∀ r ∈ (stepOp BranchWatchOp.wipeInspection s).records,
       r.inspected = false) := by
  refine ⟨?_, ?_, ?_⟩
  · intro d sel
    refine ⟨rfl, rfl, ?_, ?_⟩ <;>
    · intro r hr hkey
      obtain ⟨r0, _, rfl⟩ := List.mem_map.1 hr
      by_cases hc : r0.ident ∈ sel.map Prod.snd
      · simp [hc]
      · simp only [if_neg hc] at hkey
        exact absurd hkey hc
  · intro op s hop hnd
    obtain ⟨ph, recs, sel⟩ := s
    cases op with
    | recordHit id =>
      have hstep : stepOp (BranchWatchOp.recordHit id) ⟨ph, recs, sel⟩ =
          RecordHit id ⟨ph, recs, sel⟩ := rfl
      rw [hstep]
      unfold RecordHit
      by_cases hany : recs.any (fun r => decide (r.ident = id)) = true
      · simp only [hany, if_true]
        exact inspected_preserved_map (fun r => by split <;> rfl)
          (fun r h => by split <;> simp [h]) hnd
      · simp only [hany, if_false, Bool.false_eq_true]
        rintro r' hr' ⟨r, hrl, hride, hrins⟩
        rcases List.mem_append.1 hr' with hin | hfresh
        · have heq : r = r' := ident_inj_of_nodup hnd hrl hin hride
          subst heq
          exact hrins
        · exfalso
          have hre : r' = ⟨id, 1, 1, false, false⟩ := by simpa using hfresh
          apply hany
          rw [List.any_eq_true]
          exact ⟨r, hrl, by simp [hride, hre]⟩
    | clearBranchWatch =>
      rintro r' hr' _
      simp [stepOp, ClearAll] at hr'
    | codePathWasTaken =>
      have hrec : (stepOp BranchWatchOp.codePathWasTaken ⟨ph, recs, sel⟩).records = recs := by
        cases ph <;> rfl
      rw [hrec]
      exact inspected_preserved_of_mem (fun r h => h) hnd
    | codePathNotTaken =>
      cases ph with
      | blacklist =>
        exact inspected_preserved_map (fun r => by split <;> rfl)
          (fun r h => by split <;> simp [h]) hnd
      | reduction =>
        exact inspected_preserved_of_mem (fun r h => h) hnd
    | branchWasOverwritten mem =>
      cases ph with
      | blacklist =>
        exact inspected_preserved_map (fun r => by split <;> rfl)
          (fun r h => by split <;> simp [h]) hnd
      | reduction =>
        exact inspected_preserved_of_mem (fun r h => h) hnd
    | branchNotOverwritten mem =>
      cases ph with
      | blacklist =>
        exact inspected_preserved_map (fun r => by split <;> rfl)
          (fun r h => by split <;> simp [h]) hnd
      | reduction =>
        exact inspected_preserved_of_mem (fun r h => h) hnd
    | wipeRecentHits =>
      exact inspected_preserved_map (fun r => rfl) (fun r h => h) hnd
    | wipeInspection => exact absurd rfl hop
    | tableDelete keys =>
      exact inspected_preserved_of_mem
        (fun r h => (List.mem_filter.1 h).1) hnd
    | tableSetNOP keys =>
      exact inspected_preserved_map (fun r => by split <;> rfl)
        (fun r h => by split <;> simp [h]) hnd
    | tableSetBLR keys =>
      exact inspected_preserved_map (fun r => by split <;> rfl)
        (fun r h => by split <;> simp [h]) hnd
  · intro s r hr
    obtain ⟨r0, _, rfl⟩ := List.mem_map.1 hr
    rfl

def id0 : BranchIdentity := ⟨0x80001000, 0x80002000, 0x48001001, true⟩

def d0 : BranchWatchDialogState :=
  ⟨⟨.reduction, [⟨id0, 4, 1, false, false⟩], [⟨id0, 4, 1, false, false⟩]⟩, []⟩

theorem patch_actions_witness :
    (⟨id0, 4, 1, true, false⟩ : CandidateRecord) ∈
      (OnTableSetNOP [(0x80001000, id0)] d0).store.records ∧
    (⟨id0, 4, 1, true, false⟩ : CandidateRecord).inspected = true :=
  ⟨by decide,
   (patch_actions_contract.1 d0 [(0x80001000, id0)]).2.2.1
     ⟨id0, 4, 1, true, false⟩ (by decide) (by decide)⟩

/-! ## Helper lemmas for the status summary -/

lemma length_filter_map_eq {α : Type} (f : α → α) (p q : α → Bool) (l : List α)
    (h : ∀ x, q (f x) = p x) :
    ((l.map f).filter q).length = (l.filter p).length := by
  induction l with
  | nil => rfl
  | cons a t ih =>
    simp only [List.map_cons, List.filter_cons, h a]
    cases hp : p a
    · simp [ih]
    · simp [ih]

lemma updateStatus_map_congr (m : BranchWatchProxyModel) (sym : Nat → Option String)
    (ph : BranchWatchPhase) (recs sel : List CandidateRecord)
    (f : CandidateRecord → CandidateRecord)
    (hid : ∀ r, (f r).ident = r.ident)
    (hbl : ∀ r, (f r).blacklisted = r.blacklisted) :
    UpdateStatus m sym ⟨ph, recs.map f, sel.map f⟩ = UpdateStatus m sym ⟨ph, recs, sel⟩ := by
  have hrow : ∀ r, rowOfRecord sym (f r) = rowOfRecord sym r := by
    intro r; unfold rowOfRecord; rw [hid]
  cases ph with
  | blacklist =>
    have hb := length_filter_map_eq f (fun r => r.blacklisted) (fun r => r.blacklisted)
      recs (fun x => hbl x)
    simp [UpdateStatus, collectionSize, blacklistSize, hb]
  | reduction =>
    have hf := length_filter_map_eq f
      (fun r => filterAcceptsRow m (rowOfRecord sym r))
      (fun r => filterAcceptsRow m (rowOfRecord sym r))
      sel (fun x => by simp only [hrow])
    simp [UpdateStatus, proxyRowCount, hf]

/-- C8 counterexample: the claim states the status summary is recomputed
after every mutating operation, but `OnWipeRecentHits`
(BranchWatchDialog.cpp:671-674) mutates the store (it zeroes every
record's recent-hit count) without calling `UpdateStatus`. -/
theorem wipe_mutates_without_status_update :
    stepOp BranchWatchOp.wipeRecentHits demoStore ≠ demoStore ∧
    callsUpdateStatus BranchWatchOp.wipeRecentHits = false := by decide

/-- C8 (amended): The status summary reports the phase, the candidate
count, the excluded-or-filtered count (blacklist size in the Blacklist
phase, filtered-out rows in the Reduction phase), and the remaining
count, with remaining = candidate count minus excluded-or-filtered
count; and the summary is recomputed after every dialog operation that
can change it — the operations that skip the recomputation (wipe recent
hits, wipe inspection data, and the NOP/BLR patch actions) can never
change any reported field. -/
theorem status_summary_contract :
    (∀ (m : BranchWatchProxyModel) (sym : Nat → Option String) (s : BranchWatchStore),
       (UpdateStatus m sym s).remaining =
         (UpdateStatus m sym s).candidates - (UpdateStatus m sym s).excluded) ∧
    (∀ (op : BranchWatchOp) (m : BranchWatchProxyModel) (sym : Nat → Option String)
       (s : BranchWatchStore),
       isDialogOp op = true →
       UpdateStatus m sym (stepOp op s) ≠ UpdateStatus m sym s →
       callsUpdateStatus op = true) := by
  constructor
  · intro m sym s
    obtain ⟨ph, recs, sel⟩ := s
    cases ph with
    | blacklist => rfl
    | reduction =>
      show proxyRowCount m sym ⟨.reduction, recs, sel⟩ =
        sel.length - (sel.length - proxyRowCount m sym ⟨.reduction, recs, sel⟩)
      exact (Nat.sub_sub_self (List.length_filter_le _ _)).symm
  · intro op m sym s hdia hne
    obtain ⟨ph, recs, sel⟩ := s
    cases op with
    | recordHit id => simp [isDialogOp] at hdia
    | clearBranchWatch => rfl
    | codePathWasTaken => rfl
    | codePathNotTaken => rfl
    | branchWasOverwritten mem => rfl
    | branchNotOverwritten mem => rfl
    | tableDelete keys => rfl
    | wipeRecentHits =>
      exact absurd
        (updateStatus_map_congr m sym ph recs sel
          (fun r => { r with recent_hits := 0 }) (fun r => rfl) (fun r => rfl)) hne
    | wipeInspection =>
      exact absurd
        (updateStatus_map_congr m sym ph recs sel
          (fun r => { r with inspected := false }) (fun r => rfl) (fun r => rfl)) hne
    | tableSetNOP keys =>
      exact absurd
        (updateStatus_map_congr m sym ph recs sel
          (fun r => if r.ident ∈ keys then { r with inspected := true } else r)
          (fun r => by dsimp only; split <;> rfl)
          (fun r => by dsimp only; split <;> rfl)) hne
    | tableSetBLR keys =>
      exact absurd
        (updateStatus_map_congr m sym ph recs sel
          (fun r => if r.ident ∈ keys then { r with inspected := true } else r)
          (fun r => by dsimp only; split <;> rfl)
          (fun r => by dsimp only; split <;> rfl)) hne

def defaultProxy : BranchWatchProxyModel :=
  ⟨"", "", none, none, none, none, true, true, true, true, true, true, true, true,
   true, true, true, true, true, true⟩

theorem status_summary_witness :
    isDialogOp BranchWatchOp.clearBranchWatch = true ∧
    UpdateStatus defaultProxy (fun _ => none)
        (stepOp BranchWatchOp.clearBranchWatch demoStore) ≠
      UpdateStatus defaultProxy (fun _ => none) demoStore ∧
    callsUpdateStatus BranchWatchOp.clearBranchWatch = true :=
  ⟨by decide, by decide,
   status_summary_contract.2 BranchWatchOp.clearBranchWatch defaultProxy
     (fun _ => none) demoStore (by decide) (by decide)⟩

def blRow : BranchWatchTableRow := ⟨true, 0x80001000, 0x80002000, 0x48001001, none, none⟩

theorem filter_accepts_row_witness :
    PassesFilterSpec defaultProxy blRow :=
  (filter_accepts_row_iff defaultProxy blRow).1 (by decide)

theorem insert_blr_enable_witness :
    CoreState.running ≠ CoreState.uninitialized ∧
    (∀ w ∈ [0x4E800021], LK w = 1) ∧
    insertBLREnabled CoreState.running [0x4E800021] = true :=
  ⟨by decide, by decide,
   (insert_blr_enable_condition CoreState.running [0x4E800021]).2 ⟨by decide, by decide⟩⟩

end BranchWatch
